import Mathlib

/-!
Verification of the Aspen IP21 data-agent connector
(`src/data_agent_aspen_ip21/connector.py`).

The Python code is shallowly embedded: strings stay strings (manipulated
through their character lists), Python `dict`s become insertion-ordered
association lists, the pyodbc cursor/transport is modelled as an explicit
backend table, and raised Python exceptions become `Except` errors.
Timestamps are modelled as naturals and trend values as integers; neither
choice matters for the properties proved here, which only compare
timestamps and carry values through.
-/

set_option autoImplicit false

namespace Ip21

/-- Raised Python exceptions relevant to the connector, plus the
precondition failure produced by the `active_connection` guard. -/
inductive DAError where
  /-- Failure of the `active_connection` guard: operation invoked while
  disconnected. -/
  | preconditionError
  /-- Python `TypeError` (e.g. subscripting a bound method). -/
  | typeError
  /-- Python `KeyError` from a failed `dict` lookup. -/
  | keyError
  /-- `pandas.DataFrame.pivot` raising `ValueError` on duplicate
  `(index, columns)` pairs. -/
  | pivotError
  /-- `RuntimeError("unsupported")`. -/
  | runtimeUnsupported
  deriving DecidableEq, Repr

/-- `AspenIp21Connector.GROUP_TAG_DELIMITER = ":"`. -/
def GROUP_TAG_DELIMITER : Char := ':'

/-- Rendering of the connector's `_default_group` attribute inside a Python
f-string: the value `None` (no default group configured) renders as the
four-character string `"None"`. -/
def pyStr : Option String → String
  | none => "None"
  | some s => s

/-- The character rewrite performed by `t.replace("*", "%")`. -/
def starToPct (c : Char) : Char :=
  if c = '*' then '%' else c

/-- `t.replace("*", "%")`. -/
def replaceStar (s : String) : String :=
  String.mk (s.data.map starToPct)

/-- `self.GROUP_TAG_DELIMITER in t` — substring (here: character)
containment test. -/
def hasDelim (t : String) : Bool :=
  t.data.contains GROUP_TAG_DELIMITER

/-- Split a character list at the first occurrence of the delimiter:
`none` when the delimiter is absent. -/
def splitFirstAux : List Char → Option (List Char × List Char)
  | [] => none
  | c :: rest =>
    if c = GROUP_TAG_DELIMITER then some ([], rest)
    else
      match splitFirstAux rest with
      | none => none
      | some (a, b) => some (c :: a, b)

/-- `t.split(self.GROUP_TAG_DELIMITER, 1)` — at most one split, at the
first delimiter. -/
def splitFirst (t : String) : List String :=
  match splitFirstAux t.data with
  | none => [t]
  | some (a, b) => [String.mk a, String.mk b]

/-- Accumulator-based splitter for the unbounded
`tag.split(self.GROUP_TAG_DELIMITER)`. -/
def splitAllAux (acc : List Char) : List Char → List (List Char)
  | [] => [acc.reverse]
  | c :: rest =>
    if c = GROUP_TAG_DELIMITER then acc.reverse :: splitAllAux [] rest
    else splitAllAux (c :: acc) rest

/-- `tag.split(self.GROUP_TAG_DELIMITER)` — full split on every
delimiter occurrence. -/
def splitAll (l : List Char) : List (List Char) :=
  splitAllAux [] l

/-- The short-name computation of `read_tag_values_period` (line 557):
`tag.split(delim)[1] if delim in tag else tag`.  Note this takes element
`[1]` of the *full* split, not the remainder after the first delimiter. -/
def shortName (tag : String) : String :=
  if hasDelim tag then String.mk ((splitAll tag.data).getD 1 []) else tag

/-- `dict.setdefault(k, []).append(v)` on an insertion-ordered
association list (Python 3 `dict`s preserve insertion order). -/
def setdefaultAppend (m : List (String × List String)) (k : String) (v : String) :
    List (String × List String) :=
  match m with
  | [] => [(k, [v])]
  | (k0, vs) :: rest =>
    if k0 = k then (k0, vs ++ [v]) :: rest else (k0, vs) :: setdefaultAppend rest k v

/-- The fully-qualified-name rewrite at the top of `_tag_list_to_group_map`:
`t if delim in t else f"{self._default_group}{delim}{t}"`. -/
def fqnOf (dg : Option String) (t : String) : String :=
  if hasDelim t then t else pyStr dg ++ GROUP_TAG_DELIMITER.toString ++ t

/-- One iteration of the `for t in fqn_tags` loop body of
`_tag_list_to_group_map`.  The single-element branch
(`table_name = self._default_group`) is kept for faithfulness although it
is unreachable: every fqn tag contains the delimiter. -/
def groupMapStep (dg : Option String) (m : List (String × List String)) (t : String) :
    List (String × List String) :=
  match splitFirst (replaceStar t) with
  | [_] => setdefaultAppend m (pyStr dg) t
  | a :: b :: _ => setdefaultAppend m a b
  | [] => m

/-- `AspenIp21Connector._tag_list_to_group_map` (lines 392-411). -/
def tag_list_to_group_map (dg : Option String) (tags : List String) :
    List (String × List String) :=
  (tags.map (fqnOf dg)).foldl (groupMapStep dg) []

/-- `MAP_IP21ATTRIBUTE_2_STANDARD` (lines 18-26), as an ordered
association list (all keys are distinct, so lookup agrees with the
Python `dict`). -/
def MAP_IP21ATTRIBUTE_2_STANDARD : List (String × String) :=
  [("NAME", "Name"),
   ("IP_TAG_TYPE", "Type"),
   ("IP_DESCRIPTION", "Description"),
   ("IP_ENG_UNITS", "EngUnits"),
   ("IP_DCS_NAME", "Path"),
   ("IP_TREND_TIME", "Timestamp"),
   ("IP_TREND_VALUE", "Value")]

/-- `MAP_STANDARD_ATTR_TO_IP21 = {v: k for k, v in MAP_IP21ATTRIBUTE_2_STANDARD.items()}`
(line 28).  All values of the source map are distinct, so the inverted
association list again agrees with the Python `dict`. -/
def MAP_STANDARD_ATTR_TO_IP21 : List (String × String) :=
  MAP_IP21ATTRIBUTE_2_STANDARD.map (fun kv => (kv.2, kv.1))

/-- Python `dict` lookup (`m[k]` / `k in m`) on an association list with
distinct keys. -/
def dictLookup {β : Type} (m : List (String × β)) (k : String) : Option β :=
  (m.find? (fun kv => kv.1 == k)).map Prod.snd

/-- `AspenIp21Connector._standard_to_native_attr_list` (lines 194-199). -/
def standard_to_native_attr_list (attrs : List String) : List String :=
  attrs.map (fun a =>
    match dictLookup MAP_STANDARD_ATTR_TO_IP21 a with
    | some n => n
    | none => a)

/-- SQL `LIKE` pattern matching as evaluated by the backend on the
predicates the query builder emits (`tbl.NAME.like(...)`): `%` matches
any character sequence, `_` any single character, every other pattern
character matches itself. -/
def likeMatch : List Char → List Char → Bool
  | [], s => s.isEmpty
  | p :: ps, s =>
    if p = '%' then s.tails.any (likeMatch ps)
    else
      match s with
      | [] => false
      | c :: s2 => (p = '_' || p = c) && likeMatch ps s2

/-- Evaluation of the OR-combined filter
`reduce(or_, [tbl.NAME.like(f"{tag}%") for tag in patterns])` on one
row's `NAME`; `patterns` are the already-appended `LIKE` patterns. -/
def matchesPatterns (patterns : List String) (name : String) : Bool :=
  patterns.any (fun p => likeMatch p.data name.data)

/-- The `LIKE` patterns built for a group's tag list: `f"{tag}%"` for
each tag. -/
def likePatternsOf (gtags : List String) : List String :=
  gtags.map (fun tag => tag ++ "%")

/-- A tag-name pattern with no `LIKE` metacharacters (an exact name). -/
def wildcardFree (tag : String) : Bool :=
  !(tag.data.any (fun c => c = '%' || c = '_'))

/-- A row of a group (fixed-area) table as consumed by the recorded-values
period read: `NAME`, `IP_TREND_TIME`, `IP_TREND_VALUE`. -/
structure TrendRow where
  name : String
  ts : Nat
  value : Int
  deriving DecidableEq, Repr

/-- A row of the `HISTORY` table as consumed by the interpolated period
read: `NAME`, `TS`, `VALUE`, `REQUEST`. -/
structure HistRow where
  name : String
  ts : Nat
  value : Int
  request : Int
  deriving DecidableEq, Repr

/-- The backend visible to `read_tag_values_period`: the group tables
(keyed by table name) and the `HISTORY` table.  Per the spec the
transport itself is an external collaborator that "executes a query
string, returns rows with column names". -/
structure PeriodBackend where
  groups : String → List TrendRow
  history : List HistRow

/-- The shape of one statement batch issued by `read_tag_values_period`
for a single table. -/
structure PeriodStmt where
  /-- `SET MAX_ROWS n` prepended as a separate statement batch
  (`sql = f"SET MAX_ROWS {max_results}; {str(q)};"`). -/
  setMaxRows : Option Int
  /-- Inline `TOP` clause (`q = q.top(max_results)`). -/
  topLimit : Option Int
  table : String
  likePatterns : List String
  firstTs : Option Nat
  lastTs : Option Nat
  /-- Whether `curs.nextset()` is called before fetching. -/
  advanceNextset : Bool
  deriving DecidableEq, Repr

/-- Statement built for one group by the recorded-values branch of
`read_tag_values_period` (lines 512-542). -/
def periodGroupStmt (sqlServerMode : Bool) (maxResults : Int)
    (first last : Option Nat) (grp : String) (gtags : List String) : PeriodStmt :=
  { setMaxRows := if maxResults > 0 && !sqlServerMode then some maxResults else none
    topLimit := if maxResults > 0 && sqlServerMode then some maxResults else none
    table := grp
    likePatterns := likePatternsOf gtags
    firstTs := first
    lastTs := last
    advanceNextset := maxResults > 0 && !sqlServerMode }

/-- The final SQL text of line 537:
`f"SET MAX_ROWS {max_results}; {str(q)};"` when the directive is
prepended, the bare query text otherwise. -/
def renderPeriodSql (queryText : String) (s : PeriodStmt) : String :=
  match s.setMaxRows with
  | some n => "SET MAX_ROWS " ++ toString n ++ "; " ++ queryText ++ ";"
  | none => queryText

/-- Evaluation of the recorded-values `WHERE` clause on one backend row:
time bounds (applied at the query layer) and the OR-combined `LIKE`
filter. -/
def periodRowPred (first last : Option Nat) (gtags : List String) (r : TrendRow) : Bool :=
  (match first with | none => true | some f => decide (f ≤ r.ts)) &&
  (match last with | none => true | some l => decide (r.ts ≤ l)) &&
  matchesPatterns (likePatternsOf gtags) r.name

/-- Rows obtained for one group of the recorded-values branch.  The
matching rows are capped at `max_results` either by the inline `TOP`
clause (sql-server mode) or — modelled from the spec — by the
`SET MAX_ROWS` directive honoured by the external transport after
`curs.nextset()` (native mode); with `max_results <= 0` all matching
rows are fetched. -/
def fetchGroupRows (backend : String → List TrendRow) (sqlServerMode : Bool)
    (maxResults : Int) (first last : Option Nat) (grp : String)
    (gtags : List String) : List TrendRow :=
  let rows := (backend grp).filter (periodRowPred first last gtags)
  if maxResults > 0 then rows.take maxResults.toNat else rows

/-- `data` accumulated across the groups of the recorded-values branch
(`data.extend(curs.fetchall())`, in group-map order). -/
def periodFetchedData (backend : String → List TrendRow) (dg : Option String)
    (sqlServerMode : Bool) (maxResults : Int) (first last : Option Nat)
    (tags : List String) : List TrendRow :=
  ((tag_list_to_group_map dg tags).map
    (fun g => fetchGroupRows backend sqlServerMode maxResults first last g.1 g.2)).flatten

/-- Insert into a sorted duplicate-free list (used to model the sorted,
de-duplicated index/columns produced by `DataFrame.pivot`). -/
def insortU {α : Type} [LinearOrder α] (x : α) : List α → List α
  | [] => [x]
  | y :: ys => if x = y then y :: ys else if x < y then x :: y :: ys else y :: insortU x ys

/-- Sorted, duplicate-free list of the values occurring in `l`. -/
def dedupSort {α : Type} [LinearOrder α] (l : List α) : List α :=
  l.foldr insortU []

/-- Two rows sharing the same `(Timestamp, Name)` pair — the condition
under which `DataFrame.pivot` raises
`ValueError: Index contains duplicate entries, cannot reshape`. -/
def hasDupPair : List TrendRow → Bool
  | [] => false
  | r :: rs => rs.any (fun r2 => r2.ts == r.ts && r2.name == r.name) || hasDupPair rs

/-- The wide table produced by
`df.pivot(index="Timestamp", columns="Name", values="Value")`:
timestamp index, one column per name, cells looked up in the underlying
records.  `columns` is kept as an explicit ordered list because the
connector appends columns to it afterwards. -/
structure WideTable where
  index : List Nat
  columns : List String
  records : List TrendRow
  deriving DecidableEq, Repr

/-- `df.pivot(index="Timestamp", columns="Name", values="Value")`:
fails on duplicate `(Timestamp, Name)` pairs, otherwise produces the
sorted de-duplicated index and columns over the records. -/
def pivot (data : List TrendRow) : Option WideTable :=
  if hasDupPair data then none
  else some { index := dedupSort (data.map TrendRow.ts)
              columns := dedupSort (data.map TrendRow.name)
              records := data }

/-- Cell of the pivoted table at `(ts, name)`: the value of the (unique)
record with that timestamp and name, missing otherwise. -/
def getCell (t : WideTable) (ts : Nat) (name : String) : Option Int :=
  (t.records.find? (fun r => r.ts == ts && r.name == name)).map TrendRow.value

/-- The `for tag in tags: df[short_name] = df.get(short_name, None)` loop
(lines 556-563): a short name already present leaves the table unchanged,
an absent one is appended as an all-missing column. -/
def addRequestedColumns (t : WideTable) : List String → WideTable
  | [] => t
  | tag :: rest =>
    let s := shortName tag
    addRequestedColumns
      (if s ∈ t.columns then t else { t with columns := t.columns ++ [s] }) rest

/-- `MAP_TIME_FREQUENCY_TO_IP21 = {"raw data": None}` (line 30). -/
def MAP_TIME_FREQUENCY_TO_IP21 : List (String × Option String) :=
  [("raw data", none)]

/-- ASCII lower-casing of one character, as `str.lower()` acts on the
characters relevant here (the comparison target is `"raw data"`). -/
def charLower (c : Char) : Char :=
  if 65 ≤ c.toNat ∧ c.toNat ≤ 90 then Char.ofNat (c.toNat + 32) else c

/-- `time_frequency.lower()`. -/
def pyLower (s : String) : String :=
  String.mk (s.data.map charLower)

/-- The `freq` computation of lines 442-446:
`MAP[tf.lower()] if time_frequency and time_frequency.lower() in MAP
else time_frequency`. -/
def freqOf : Option String → Option String
  | none => none
  | some s =>
    if s = "" then some s
    else
      match dictLookup MAP_TIME_FREQUENCY_TO_IP21 (pyLower s) with
      | some v => v
      | none => some s

/-- Python truthiness of the `freq` value (`if freq:`): `None` and the
empty string are falsy. -/
def pyTruthy : Option String → Bool
  | none => false
  | some s => !(s == "")

/-- The per-tag expression of lines 465-472:
`t.split[self.GROUP_TAG_DELIMITER, 1][1] if self.GROUP_TAG_DELIMITER in t
else t`.  `t.split` is a bound method; subscripting it with square
brackets (instead of calling it) raises `TypeError` in Python, so every
tag containing the delimiter fails here, during query construction. -/
def interpTagName (t : String) : Except DAError String :=
  if hasDelim t then .error .typeError else .ok t

/-- The `tag_names` list comprehension of the interpolated branch,
evaluated left to right with the first raised exception propagating. -/
def interpTagNames : List String → Except DAError (List String)
  | [] => .ok []
  | t :: ts => do
    let n ← interpTagName t
    let ns ← interpTagNames ts
    .ok (n :: ns)

/-- Statement built by the interpolated branch (lines 450-495): always
against `HISTORY`, never an inline `TOP` clause; `SET MAX_ROWS` plus
`nextset()` only outside sql-server mode. -/
def interpStmt (sqlServerMode : Bool) (maxResults : Int) (first last : Option Nat)
    (names : List String) : PeriodStmt :=
  { setMaxRows := if maxResults > 0 && !sqlServerMode then some maxResults else none
    topLimit := none
    table := "HISTORY"
    likePatterns := likePatternsOf names
    firstTs := first
    lastTs := last
    advanceNextset := maxResults > 0 && !sqlServerMode }

/-- Rows fetched by the interpolated branch: `HISTORY` filtered by the
time bounds, the OR-combined `LIKE` filter and `REQUEST == 2`, capped by
`SET MAX_ROWS` only outside sql-server mode, and projected onto
`(NAME, TS, VALUE)`. -/
def interpFetch (hist : List HistRow) (sqlServerMode : Bool) (maxResults : Int)
    (first last : Option Nat) (names : List String) : List TrendRow :=
  let rows := hist.filter (fun r =>
    (match first with | none => true | some f => decide (f ≤ r.ts)) &&
    (match last with | none => true | some l => decide (r.ts ≤ l)) &&
    matchesPatterns (likePatternsOf names) r.name &&
    r.request == 2)
  let rows := if maxResults > 0 && !sqlServerMode then rows.take maxResults.toNat else rows
  rows.map (fun r => { name := r.name, ts := r.ts, value := r.value })

/-- The column renaming of lines 546-551:
`MAP_IP21ATTRIBUTE_2_STANDARD[column[0]] for column in curs.description`;
a column name absent from the map raises `KeyError`. -/
def renameColumns : List String → Except DAError (List String)
  | [] => .ok []
  | c :: cs =>
    match dictLookup MAP_IP21ATTRIBUTE_2_STANDARD c with
    | none => .error .keyError
    | some n => do
      let ns ← renameColumns cs
      .ok (n :: ns)

/-- The shared tail of `read_tag_values_period` (lines 546-565): rename
the cursor columns, pivot, and append a column for every requested tag's
short name. -/
def assemblePeriodResult (cursorCols : List String) (data : List TrendRow)
    (tags : List String) : Except DAError WideTable :=
  match renameColumns cursorCols with
  | .error e => .error e
  | .ok _ =>
    match pivot data with
    | none => .error .pivotError
    | some t => .ok (addRequestedColumns t tags)

/-- `AspenIp21Connector.read_tag_values_period` (lines 413-565), given the
backend tables, the configured default group and the dialect flag
(`_sql_server_mode`).  Returns the statements issued (in order) together
with the outcome; a raised exception carries no result and, when raised
during query construction, an empty statement list. -/
def read_tag_values_period (be : PeriodBackend) (dg : Option String)
    (sqlServerMode : Bool) (tags : List String) (time_frequency : Option String)
    (first last : Option Nat) (maxResults : Int) :
    List PeriodStmt × Except DAError WideTable :=
  if pyTruthy (freqOf time_frequency) then
    match interpTagNames tags with
    | .error e => ([], .error e)
    | .ok names =>
      ([interpStmt sqlServerMode maxResults first last names],
       assemblePeriodResult ["NAME", "TS", "VALUE"]
         (interpFetch be.history sqlServerMode maxResults first last names) tags)
  else
    ((tag_list_to_group_map dg tags).map
       (fun g => periodGroupStmt sqlServerMode maxResults first last g.1 g.2),
     assemblePeriodResult ["NAME", "IP_TREND_TIME", "IP_TREND_VALUE"]
       (periodFetchedData be.groups dg sqlServerMode maxResults first last tags) tags)

/-- The shape of the statement `list_tags` issues for one group
(lines 226-270). -/
structure ListStmt where
  setMaxRows : Option Int
  topLimit : Option Int
  /-- `q.distinct()`, applied exactly when `_sql_server_mode` holds. -/
  distinct : Bool
  table : String
  likePatterns : List String
  deriving DecidableEq, Repr

/-- Statement built by `list_tags` for one group.  It takes
`max_results` as an argument only to document that the built query never
consults it: the statement-level limiting code (lines 251-269) is
commented out in the source, so neither an inline limit nor a
`SET MAX_ROWS` directive is emitted. -/
def listTagsStmt (sqlServerMode : Bool) (maxResults : Int) (grp : String)
    (gtags : List String) : ListStmt :=
  { setMaxRows := none
    topLimit := none
    distinct := sqlServerMode
    table := grp
    likePatterns := likePatternsOf gtags }

/-- Lexicographic code-point comparison of character lists, the collation
used for `ORDER BY NAME ASC`. -/
def strLeB : List Char → List Char → Bool
  | [], _ => true
  | _ :: _, [] => false
  | a :: as, b :: bs =>
    if a.toNat < b.toNat then true
    else if b.toNat < a.toNat then false
    else strLeB as bs

/-- String comparison for `ORDER BY NAME ASC`. -/
def strLe (a b : String) : Bool :=
  strLeB a.data b.data

/-- Insert into a list sorted ascending (`ORDER BY NAME ASC`). -/
def insortLe (x : String) : List String → List String
  | [] => [x]
  | y :: ys => if strLe x y then x :: y :: ys else y :: insortLe x ys

/-- The backend's `ORDER BY NAME ASC` on the projected names. -/
def sortNamesAsc (l : List String) : List String :=
  l.foldr insortLe []

/-- Backend evaluation of a `list_tags` statement on a group table's
`NAME` column: filter by the OR-combined `LIKE` predicate, order by name
ascending, de-duplicate when `DISTINCT` was requested. -/
def execListStmt (table : List String) (s : ListStmt) : List String :=
  let rows := sortNamesAsc (table.filter (matchesPatterns s.likePatterns))
  if s.distinct then rows.dedup else rows

/-- Rows obtained by `list_tags` for one group:
`curs.fetchmany(max_results) if max_results > 0 else curs.fetchall()`
(line 273) — the limiting is applied client-side, after the unlimited
statement has executed. -/
def listTagsRowsForGroup (table : List String) (sqlServerMode : Bool)
    (maxResults : Int) (grp : String) (gtags : List String) : List String :=
  let rows := execListStmt table (listTagsStmt sqlServerMode maxResults grp gtags)
  if maxResults > 0 then rows.take maxResults.toNat else rows

/-- The shape of the statement `read_tag_attributes` issues for one group
(lines 327-347): no `DISTINCT`, no limiting of any kind. -/
structure AttrStmt where
  table : String
  likePatterns : List String
  deriving DecidableEq, Repr

/-- Statement built by `read_tag_attributes` for one group. -/
def readTagAttributesStmt (grp : String) (gtags : List String) : AttrStmt :=
  { table := grp, likePatterns := likePatternsOf gtags }

/-- Backend evaluation of a `read_tag_attributes` statement on a group
table's `NAME` column. -/
def execAttrStmt (table : List String) (s : AttrStmt) : List String :=
  sortNamesAsc (table.filter (matchesPatterns s.likePatterns))

/-- The connector's connection state: `self._conn`, an opaque pyodbc
handle or `None`.  `connected` is `self._conn is not None`
(lines 166-168), so the connector has exactly the two states Disconnected
(`conn = none`, the initial state) and Connected. -/
structure ConnState where
  conn : Option Unit
  deriving DecidableEq, Repr

/-- `AspenIp21Connector.connected` (lines 166-168). -/
def connected (s : ConnState) : Bool :=
  s.conn.isSome

/-- `AspenIp21Connector.connect` (lines 170-172): establishes the
handle. -/
def connect (_ : ConnState) : ConnState :=
  { conn := some () }

/-- Modelled from the spec: the `active_connection` decorator, imported
from the external `data_agent` package (not part of this repository's
sources), guards every data operation — it "requires the Connected state
and fails fast (precondition error, not a query-time error) when invoked
while Disconnected".  The operation body, which may issue statements
(logged in the first component), runs only when connected. -/
def activeConnection {σ α : Type} (s : ConnState)
    (op : Unit → List σ × Except DAError α) : List σ × Except DAError α :=
  if connected s then op () else ([], .error .preconditionError)

/-- `AspenIp21Connector.disconnect` (lines 178-181): guarded, closes the
handle and clears it. -/
def disconnect_op (s : ConnState) : List String × Except DAError ConnState :=
  activeConnection s (fun _ => ([], .ok { conn := none }))

/-- `AspenIp21Connector.connection_info` (lines 183-192): guarded, returns
the static description. -/
def connection_info_op (s : ConnState) (serverHost : String) :
    List String × Except DAError (List (String × String)) :=
  activeConnection s (fun _ =>
    ([], .ok [("OneLiner", "[aspen-ip21] 'ODBC://"), ("ServerName", serverHost),
              ("Description", ""), ("Version", "")]))

/-- `AspenIp21Connector.list_tags` (lines 201-316), restricted to the
name-keyed result (`include_attributes = False`): guarded, resolves the
filters into the group map, issues one unlimited statement per group and
keys each fetched row by `f"{grp}{self.GROUP_TAG_DELIMITER}{row.NAME}"`. -/
def list_tags_op (s : ConnState) (be : String → List String) (dg : Option String)
    (sqlServerMode : Bool) (filters : List String) (maxResults : Int) :
    List ListStmt × Except DAError (List String) :=
  activeConnection s (fun _ =>
    let gm := tag_list_to_group_map dg filters
    (gm.map (fun g => listTagsStmt sqlServerMode maxResults g.1 g.2),
     .ok ((gm.map (fun g =>
       (listTagsRowsForGroup (be g.1) sqlServerMode maxResults g.1 g.2).map
         (fun n => g.1 ++ GROUP_TAG_DELIMITER.toString ++ n))).flatten)))

/-- `AspenIp21Connector.read_tag_attributes` (lines 318-386), restricted
to the row names: guarded, one statement per resolved group. -/
def read_tag_attributes_op (s : ConnState) (be : String → List String)
    (dg : Option String) (tags : List String) :
    List AttrStmt × Except DAError (List String) :=
  activeConnection s (fun _ =>
    let gm := tag_list_to_group_map dg tags
    (gm.map (fun g => readTagAttributesStmt g.1 g.2),
     .ok ((gm.map (fun g => execAttrStmt (be g.1) (readTagAttributesStmt g.1 g.2))).flatten)))

/-- `AspenIp21Connector.read_tag_values` (lines 388-390): guarded, then
unconditionally `raise RuntimeError("unsupported")`. -/
def read_tag_values_op (s : ConnState) (_tags : List String) :
    List String × Except DAError Unit :=
  activeConnection s (fun _ => ([], .error .runtimeUnsupported))

/-- `AspenIp21Connector.write_tag_values` (lines 567-569): guarded, then
unconditionally `raise RuntimeError("unsupported")`. -/
def write_tag_values_op (s : ConnState) (_tags : List (String × Int)) :
    List String × Except DAError Unit :=
  activeConnection s (fun _ => ([], .error .runtimeUnsupported))

/-- `AspenIp21Connector.read_tag_values_period`, with its
`active_connection` guard. -/
def read_tag_values_period_op (s : ConnState) (be : PeriodBackend)
    (dg : Option String) (sqlServerMode : Bool) (tags : List String)
    (time_frequency : Option String) (first last : Option Nat) (maxResults : Int) :
    List PeriodStmt × Except DAError WideTable :=
  activeConnection s (fun _ =>
    read_tag_values_period be dg sqlServerMode tags time_frequency first last maxResults)

example : tag_list_to_group_map (some "IP_AIDef") ["fc001.pv", "G2:sp*"] =
    [("IP_AIDef", ["fc001.pv"]), ("G2", ["sp%"])] := by decide

example : likeMatch "fc001.pv%".data "fc001.pv".data = true := by decide

example : likeMatch "fc001.pv%".data "fc001.pv.extra".data = true := by decide

example : likeMatch "fc001.pv%".data "fc001".data = false := by decide

example : tag_list_to_group_map none ["fc001"] = [("None", ["fc001"])] := by decide

example : shortName "G:a:b" = "a" := by decide

example : standard_to_native_attr_list ["Name", "FOO"] = ["NAME", "FOO"] := by decide

/-! ### Helper lemmas -/

theorem likeMatch_pct_nil (s : List Char) : likeMatch ['%'] s = true := by
  have h : ([] : List Char) ∈ s.tails := by simp [List.mem_tails]
  show s.tails.any (likeMatch []) = true
  rw [List.any_eq_true]
  exact ⟨[], h, rfl⟩

theorem likeMatch_prefix_append (p s : List Char)
    (hw : ∀ c ∈ p, c ≠ '%' ∧ c ≠ '_') :
    likeMatch (p ++ ['%']) (p ++ s) = true := by
  induction p with
  | nil => simpa using likeMatch_pct_nil s
  | cons c p ih =>
    have hc := hw c (by simp)
    have hrest : ∀ x ∈ p, x ≠ '%' ∧ x ≠ '_' := fun x hx => hw x (by simp [hx])
    simp [likeMatch, hc.1, ih hrest]

theorem wildcardFree_spec {tag : String} (h : wildcardFree tag = true) :
    ∀ c ∈ tag.data, c ≠ '%' ∧ c ≠ '_' := by
  intro c hc
  simp only [wildcardFree, Bool.not_eq_eq_eq_not, Bool.not_true, List.any_eq_false] at h
  have := h c hc
  simp only [Bool.or_eq_true, decide_eq_true_eq, not_or] at this
  exact this

theorem matchesPatterns_prefix {gtags : List String} {tag : String}
    (hmem : tag ∈ gtags) (hw : wildcardFree tag = true) (suffix : String) :
    matchesPatterns (likePatternsOf gtags) (String.mk (tag.data ++ suffix.data)) = true := by
  simp only [matchesPatterns, likePatternsOf, List.any_eq_true, List.mem_map]
  refine ⟨tag ++ "%", ⟨tag, hmem, rfl⟩, ?_⟩
  have h1 : (tag ++ "%").data = tag.data ++ ['%'] := by
    rw [String.data_append]
  rw [h1]
  exact likeMatch_prefix_append tag.data suffix.data (wildcardFree_spec hw)

theorem mem_insortU {α : Type} [LinearOrder α] (x y : α) (l : List α) :
    y ∈ insortU x l ↔ y = x ∨ y ∈ l := by
  induction l with
  | nil => simp [insortU]
  | cons z zs ih =>
    by_cases h1 : x = z
    · subst h1; simp [insortU]
    · by_cases h2 : x < z
      · simp [insortU, h1, h2]
      · simp only [insortU, if_neg h1, if_neg h2, List.mem_cons, ih]
        tauto

theorem mem_dedupSort {α : Type} [LinearOrder α] (x : α) (l : List α) :
    x ∈ dedupSort l ↔ x ∈ l := by
  induction l with
  | nil => simp [dedupSort]
  | cons a l ih =>
    show x ∈ insortU a (dedupSort l) ↔ _
    rw [mem_insortU, ih]
    simp

theorem addRequestedColumns_columns (tags : List String) (t : WideTable) (c : String) :
    c ∈ (addRequestedColumns t tags).columns ↔
      c ∈ t.columns ∨ ∃ tag ∈ tags, shortName tag = c := by
  induction tags generalizing t with
  | nil => simp [addRequestedColumns]
  | cons tag rest ih =>
    show c ∈ (addRequestedColumns (if shortName tag ∈ t.columns then t
        else { t with columns := t.columns ++ [shortName tag] }) rest).columns ↔ _
    by_cases h : shortName tag ∈ t.columns
    · rw [if_pos h, ih]
      constructor
      · rintro (hc | ⟨tg, htg, hs⟩)
        · exact Or.inl hc
        · exact Or.inr ⟨tg, List.mem_cons_of_mem _ htg, hs⟩
      · rintro (hc | ⟨tg, htg, hs⟩)
        · exact Or.inl hc
        · rcases List.mem_cons.mp htg with rfl | htg2
          · exact Or.inl (hs ▸ h)
          · exact Or.inr ⟨tg, htg2, hs⟩
    · rw [if_neg h, ih]
      constructor
      · rintro (hc | ⟨tg, htg, hs⟩)
        · rcases List.mem_append.mp hc with hc2 | hc2
          · exact Or.inl hc2
          · exact Or.inr ⟨tag, List.mem_cons_self _ _, (List.mem_singleton.mp hc2).symm⟩
        · exact Or.inr ⟨tg, List.mem_cons_of_mem _ htg, hs⟩
      · rintro (hc | ⟨tg, htg, hs⟩)
        · exact Or.inl (List.mem_append.mpr (Or.inl hc))
        · rcases List.mem_cons.mp htg with rfl | htg2
          · exact Or.inl (List.mem_append.mpr (Or.inr (by simp [hs])))
          · exact Or.inr ⟨tg, htg2, hs⟩

theorem addRequestedColumns_records (tags : List String) (t : WideTable) :
    (addRequestedColumns t tags).records = t.records := by
  induction tags generalizing t with
  | nil => rfl
  | cons tag rest ih =>
    show (addRequestedColumns (if _ then t else _) rest).records = t.records
    by_cases h : shortName tag ∈ t.columns
    · rw [if_pos h]; exact ih t
    · rw [if_neg h, ih]

theorem find?_of_not_dup {l : List TrendRow} (hd : hasDupPair l = false)
    {r : TrendRow} (hr : r ∈ l) :
    l.find? (fun r2 => r2.ts == r.ts && r2.name == r.name) = some r := by
  induction l with
  | nil => cases hr
  | cons r0 rs ih =>
    simp only [hasDupPair, Bool.or_eq_false_iff] at hd
    rcases List.mem_cons.mp hr with rfl | hr2
    · simp [List.find?]
    · have hpred : (r0.ts == r.ts && r0.name == r.name) = false := by
        by_contra hc
        rw [Bool.not_eq_false, Bool.and_eq_true, beq_iff_eq, beq_iff_eq] at hc
        have : rs.any (fun r2 => r2.ts == r0.ts && r2.name == r0.name) = true := by
          rw [List.any_eq_true]
          exact ⟨r, hr2, by simp [hc.1, hc.2]⟩
        rw [hd.1] at this
        cases this
      rw [List.find?, hpred]
      exact ih hd.2 hr2

theorem getCell_absent {t : WideTable} {name : String}
    (h : ∀ r ∈ t.records, r.name ≠ name) (ts : Nat) : getCell t ts name = none := by
  unfold getCell
  have hn : t.records.find? (fun r => r.ts == ts && r.name == name) = none := by
    rw [List.find?_eq_none]
    intro r hr
    simp [h r hr]
  rw [hn]
  rfl

theorem interpTagNames_error {tags : List String} {t : String}
    (ht : t ∈ tags) (hd : hasDelim t = true) :
    interpTagNames tags = .error .typeError := by
  induction tags with
  | nil => cases ht
  | cons t0 ts ih =>
    rcases List.mem_cons.mp ht with rfl | h2
    · simp [interpTagNames, interpTagName, hd, Bind.bind, Except.bind]
    · by_cases h0 : hasDelim t0 = true
      · simp [interpTagNames, interpTagName, h0, Bind.bind, Except.bind]
      · rw [Bool.not_eq_true] at h0
        simp [interpTagNames, interpTagName, h0, Bind.bind, Except.bind, ih h2]

theorem dictLookup_mem {β : Type} {m : List (String × β)} {k : String} {v : β}
    (h : dictLookup m k = some v) : (k, v) ∈ m := by
  induction m with
  | nil => simp [dictLookup] at h
  | cons kv rest ih =>
    unfold dictLookup at h ih
    rw [List.find?] at h
    by_cases hk : (kv.1 == k) = true
    · have hv : kv.2 = v := by rw [hk] at h; simpa using h
      have hkk : kv.1 = k := beq_iff_eq.mp hk
      have heq : (k, v) = kv := by rw [← hkk, ← hv]
      rw [heq]
      exact List.mem_cons_self _ _
    · rw [Bool.not_eq_true] at hk
      rw [hk] at h
      exact List.mem_cons_of_mem _ (ih h)

theorem splitFirstAux_append {pre : List Char} (h : GROUP_TAG_DELIMITER ∉ pre)
    (suf : List Char) :
    splitFirstAux (pre ++ GROUP_TAG_DELIMITER :: suf) = some (pre, suf) := by
  induction pre with
  | nil => simp [splitFirstAux]
  | cons c cs ih =>
    have hc : ¬ c = GROUP_TAG_DELIMITER := fun e => h (by simp [e])
    have h2 : GROUP_TAG_DELIMITER ∉ cs := fun e => h (by simp [e])
    simp [splitFirstAux, hc, ih h2]

theorem starToPct_delim_iff (c : Char) :
    starToPct c = GROUP_TAG_DELIMITER ↔ c = GROUP_TAG_DELIMITER := by
  unfold starToPct GROUP_TAG_DELIMITER
  by_cases hc : c = '*' <;> simp [hc]

theorem splitFirstAux_map_starToPct (l : List Char) :
    splitFirstAux (l.map starToPct) =
      (splitFirstAux l).map (fun p => (p.1.map starToPct, p.2.map starToPct)) := by
  induction l with
  | nil => rfl
  | cons c cs ih =>
    by_cases hc : c = GROUP_TAG_DELIMITER
    · subst hc
      rw [List.map_cons]
      rw [show starToPct GROUP_TAG_DELIMITER = GROUP_TAG_DELIMITER from rfl]
      simp [splitFirstAux]
    · have hc2 : ¬ starToPct c = GROUP_TAG_DELIMITER := fun e =>
        hc ((starToPct_delim_iff c).mp e)
      rw [List.map_cons]
      simp only [splitFirstAux, if_neg hc, if_neg hc2, ih]
      cases splitFirstAux cs <;> simp

theorem splitFirstAux_some_contains {l : List Char} {p : List Char × List Char}
    (h : splitFirstAux l = some p) : l.contains GROUP_TAG_DELIMITER = true := by
  induction l generalizing p with
  | nil => simp [splitFirstAux] at h
  | cons c cs ih =>
    by_cases hc : c = GROUP_TAG_DELIMITER
    · simp [List.contains_cons, hc]
    · simp only [splitFirstAux, if_neg hc] at h
      rcases hq : splitFirstAux cs with _ | q
      · rw [hq] at h; cases h
      · have h2 := ih hq
        simp only [List.contains_cons, Bool.or_eq_true] at h2 ⊢
        simp at h2 ⊢
        exact Or.inr h2

/-! ### Claim theorems -/

/-- C1, counterexample: a data operation whose tag list contains
`"fc001"` (no group delimiter), on a connector with no default group
configured, does not fail during tag-address resolution —
`_tag_list_to_group_map` returns the group map `{"None": ["fc001"]}`,
because the f-string `f"{self._default_group}{delim}{t}"` renders the
unset default group as the literal string `"None"`.  No `AddressError`
is raised (none exists in the code). -/
theorem c1_no_address_error_counterexample :
    tag_list_to_group_map none ["fc001"] = [("None", ["fc001"])] := by decide

/-- C1 (amended): for every tag string without the group delimiter, on a
connector instance with no default group configured, tag-address
resolution does not fail: it produces a group map whose single key is the
literal string `"None"` (the Python rendering of the unset default
group), carrying the `*`→`%`-rewritten tag. -/
theorem c1_resolve_no_default_group (t : String) (h : hasDelim t = false) :
    tag_list_to_group_map none [t] = [("None", [replaceStar t])] := by
  have hdata : (replaceStar (fqnOf none t)).data
      = "None".data ++ GROUP_TAG_DELIMITER :: t.data.map starToPct := by
    show (fqnOf none t).data.map starToPct = _
    unfold fqnOf
    simp only [h, Bool.false_eq_true, if_false]
    rw [String.data_append, String.data_append, List.map_append, List.map_append]
    rw [show (pyStr none).data.map starToPct = "None".data from by decide]
    rw [show GROUP_TAG_DELIMITER.toString.data.map starToPct = [GROUP_TAG_DELIMITER]
        from by decide]
    simp [List.append_assoc]
  have hsplit : splitFirst (replaceStar (fqnOf none t))
      = ["None", String.mk (t.data.map starToPct)] := by
    unfold splitFirst
    rw [hdata, splitFirstAux_append (by decide)]
  show groupMapStep none [] (fqnOf none t) = _
  unfold groupMapStep
  rw [hsplit]
  rfl

theorem c1_resolve_no_default_group_witness :
    tag_list_to_group_map none ["tc001.pv"] = [("None", ["tc001.pv"])] := by
  have h := c1_resolve_no_default_group "tc001.pv" (by decide)
  rw [h]
  decide

/-- C3, counterexample: for the delimited tag string `"A*:B"`, resolution
produces the single group key `"A%"`, not the substring `"A*"` before the
first delimiter — the `t.replace("*", "%")` rewrite runs on the whole
fully-qualified string before the split, so the group portion is
wildcard-rewritten too. -/
theorem c3_wildcard_group_counterexample :
    tag_list_to_group_map (some "g") ["A*:B"] = [("A%", ["B"])] ∧ "A%" ≠ "A*" := by
  decide

/-- C3 (amended): for every tag string `s` containing the group delimiter,
resolving `[s]` produces a map with exactly one group key, equal to the
substring of `s` before the first delimiter with every `*` replaced by
`%`; the wildcard rewrite is applied to the whole string, so it affects
the group portion as well as the tag portion. -/
theorem c3_resolve_delimited (dg : Option String) (s a b : String)
    (h : splitFirst s = [a, b]) :
    tag_list_to_group_map dg [s] = [(replaceStar a, [replaceStar b])] := by
  have hx : splitFirstAux s.data = some (a.data, b.data) := by
    unfold splitFirst at h
    rcases hq : splitFirstAux s.data with _ | q
    · rw [hq] at h
      simpa using congrArg List.length h
    · rw [hq] at h
      obtain ⟨q1, q2⟩ := q
      simp only [List.cons.injEq, and_true] at h
      obtain ⟨h1, h2⟩ := h
      rw [← h1, ← h2]
  have hdelim : hasDelim s = true := splitFirstAux_some_contains hx
  have hfq : fqnOf dg s = s := by unfold fqnOf; simp [hdelim]
  have hs2 : splitFirstAux (replaceStar s).data
      = some (a.data.map starToPct, b.data.map starToPct) := by
    show splitFirstAux (s.data.map starToPct) = _
    rw [splitFirstAux_map_starToPct, hx]
    rfl
  show groupMapStep dg [] (fqnOf dg s) = _
  rw [hfq]
  unfold groupMapStep splitFirst
  rw [hs2]
  rfl

theorem c3_resolve_delimited_witness :
    tag_list_to_group_map (some "dflt") ["G1:fc*"] = [("G1", ["fc%"])] := by
  have h := c3_resolve_delimited (some "dflt") "G1:fc*" "G1" "fc*" (by decide)
  rw [h]
  decide

/-- C8: the canonical/native attribute map is bijective on the standard
subset — its canonical keys and its native values are each
duplicate-free, and mapping any canonical name to its native name and
back through `MAP_IP21ATTRIBUTE_2_STANDARD` returns the original name —
and `_standard_to_native_attr_list` passes any name absent from the
canonical vocabulary through unchanged. -/
theorem c8_attr_map_roundtrip :
    (MAP_STANDARD_ATTR_TO_IP21.map Prod.fst).Nodup ∧
    (MAP_STANDARD_ATTR_TO_IP21.map Prod.snd).Nodup ∧
    (∀ c n, dictLookup MAP_STANDARD_ATTR_TO_IP21 c = some n →
      dictLookup MAP_IP21ATTRIBUTE_2_STANDARD n = some c) ∧
    (∀ a, dictLookup MAP_STANDARD_ATTR_TO_IP21 a = none →
      standard_to_native_attr_list [a] = [a]) := by
  refine ⟨by decide, by decide, ?_, ?_⟩
  · intro c n h
    have hm := dictLookup_mem h
    simp only [MAP_STANDARD_ATTR_TO_IP21, MAP_IP21ATTRIBUTE_2_STANDARD, List.map_cons,
      List.map_nil, List.mem_cons, List.not_mem_nil, or_false, Prod.mk.injEq] at hm
    rcases hm with ⟨rfl, rfl⟩ | ⟨rfl, rfl⟩ | ⟨rfl, rfl⟩ | ⟨rfl, rfl⟩ | ⟨rfl, rfl⟩ |
      ⟨rfl, rfl⟩ | ⟨rfl, rfl⟩ <;> decide
  · intro a h
    unfold standard_to_native_attr_list
    simp [h]

theorem c8_attr_map_roundtrip_witness :
    dictLookup MAP_IP21ATTRIBUTE_2_STANDARD "IP_TREND_VALUE" = some "Value" ∧
    standard_to_native_attr_list ["IP_#_OF_TREND_VALUES"] = ["IP_#_OF_TREND_VALUES"] :=
  ⟨c8_attr_map_roundtrip.2.2.1 "Value" "IP_TREND_VALUE" (by decide),
   c8_attr_map_roundtrip.2.2.2 "IP_#_OF_TREND_VALUES" (by decide)⟩

/-- Concrete backend for the C2 counterexample: the default group's table
holds one in-window row for the stored tag `"ax"`. -/
def c2Backend : PeriodBackend :=
  { groups := fun g => if g = "G" then [{ name := "ax", ts := 1, value := 5 }] else []
    history := [] }

/-- C2, counterexample: a period read requesting the single tag `"a"`
over `c2Backend` — whose one stored row has name `"ax"`, admitted by the
issued prefix filter `NAME LIKE 'a%'` — returns a wide table with column
set `{"ax", "a"}`, a strict superset of the requested short-name set
`{"a"}`. -/
theorem c2_extra_column_counterexample :
    (read_tag_values_period c2Backend (some "G") false ["a"] none none none 0).2 =
      .ok { index := [1], columns := ["ax", "a"],
            records := [{ name := "ax", ts := 1, value := 5 }] } ∧
    "ax" ∉ ["a"].map shortName := by
  constructor
  · rfl
  · decide

/-- C2 (amended): whenever a recorded-mode period read returns a table,
the table's column set is the union of the names occurring in the fetched
backend rows and the short names of the requested tags: every requested
tag always contributes its short name as a column — all-missing when no
fetched row carries that name — but a fetched row whose name merely
extends a requested pattern contributes a column outside the requested
short-name set. -/
theorem c2_period_read_column_set (be : PeriodBackend) (dg : Option String)
    (sqlServerMode : Bool) (tags : List String) (tf : Option String)
    (first last : Option Nat) (maxResults : Int) (t : WideTable)
    (hf : pyTruthy (freqOf tf) = false)
    (hok : (read_tag_values_period be dg sqlServerMode tags tf first last maxResults).2
      = .ok t) :
    (∀ c, c ∈ t.columns ↔
        (∃ r ∈ periodFetchedData be.groups dg sqlServerMode maxResults first last tags,
          r.name = c) ∨
        ∃ tag ∈ tags, shortName tag = c) ∧
    (∀ tag ∈ tags,
      (∀ r ∈ periodFetchedData be.groups dg sqlServerMode maxResults first last tags,
        r.name ≠ shortName tag) →
      ∀ ts, getCell t ts (shortName tag) = none) := by
  unfold read_tag_values_period at hok
  rw [hf] at hok
  simp only [Bool.false_eq_true, if_false] at hok
  unfold assemblePeriodResult at hok
  rw [show renameColumns ["NAME", "IP_TREND_TIME", "IP_TREND_VALUE"]
      = .ok ["Name", "Timestamp", "Value"] from rfl] at hok
  unfold pivot at hok
  by_cases hdup : hasDupPair
      (periodFetchedData be.groups dg sqlServerMode maxResults first last tags) = true
  · rw [if_pos hdup] at hok
    cases hok
  · rw [Bool.not_eq_true] at hdup
    rw [hdup] at hok
    simp only [Bool.false_eq_true, if_false, Except.ok.injEq] at hok
    subst hok
    constructor
    · intro c
      rw [addRequestedColumns_columns]
      constructor
      · rintro (hc | hc)
        · left
          have := (mem_dedupSort c _).mp hc
          rcases List.mem_map.mp this with ⟨r, hr, hrn⟩
          exact ⟨r, hr, hrn⟩
        · exact Or.inr hc
      · rintro (⟨r, hr, hrn⟩ | hc)
        · exact Or.inl ((mem_dedupSort c _).mpr (List.mem_map.mpr ⟨r, hr, hrn⟩))
        · exact Or.inr hc
    · intro tag _ habs ts
      apply getCell_absent
      intro r hr
      rw [addRequestedColumns_records] at hr
      exact habs r hr

/-- Concrete backend for the C2 witness. -/
def c2wBackend : PeriodBackend :=
  { groups := fun g =>
      if g = "IP_AIDef" then [{ name := "fc001.pv", ts := 3, value := 7 }] else []
    history := [] }

theorem c2_period_read_column_set_witness :
    "tc001.pv" ∈ (WideTable.mk [3] ["fc001.pv", "tc001.pv"]
      [{ name := "fc001.pv", ts := 3, value := 7 }]).columns ∧
    getCell (WideTable.mk [3] ["fc001.pv", "tc001.pv"]
      [{ name := "fc001.pv", ts := 3, value := 7 }]) 3 "tc001.pv" = none := by
  have h := c2_period_read_column_set c2wBackend (some "IP_AIDef") false
    ["fc001.pv", "tc001.pv"] none none none 0
    (WideTable.mk [3] ["fc001.pv", "tc001.pv"]
      [{ name := "fc001.pv", ts := 3, value := 7 }])
    (by decide) (by rfl)
  refine ⟨?_, ?_⟩
  · exact (h.1 "tc001.pv").mpr (Or.inr ⟨"tc001.pv", by decide, rfl⟩)
  · exact h.2 "tc001.pv" (by decide) (by decide) 3

/-- Concrete backend for the C4 counterexample: two rows for tag `"a"`
share the timestamp `1`. -/
def c4Backend : PeriodBackend :=
  { groups := fun g =>
      if g = "G" then
        [{ name := "a", ts := 1, value := 5 }, { name := "a", ts := 1, value := 6 }]
      else []
    history := [] }

/-- C4, counterexample: when the fetched rows contain, for tag `"a"`, two
rows with the same timestamp, the period read does not succeed with the
duplicates preserved — `DataFrame.pivot` raises
(`ValueError: Index contains duplicate entries, cannot reshape`) and the
call fails. -/
theorem c4_duplicate_rows_counterexample :
    (read_tag_values_period c4Backend (some "G") false ["a"] none none none 0).2 =
      .error .pivotError := by rfl

/-- C4 (amended): the period-read assembler performs no deduplication —
when the fetched rows have pairwise-distinct `(timestamp, name)` pairs
the assembled table keeps every fetched row verbatim (ties in timestamp
across distinct tags included) — but two fetched rows with the same
timestamp for the same tag make the pivot raise an error, so the call
fails rather than succeeding with duplicates preserved. -/
theorem c4_period_read_duplicates (be : PeriodBackend) (dg : Option String)
    (sqlServerMode : Bool) (tags : List String) (tf : Option String)
    (first last : Option Nat) (maxResults : Int)
    (hf : pyTruthy (freqOf tf) = false) :
    (hasDupPair (periodFetchedData be.groups dg sqlServerMode maxResults first last tags)
        = true →
      (read_tag_values_period be dg sqlServerMode tags tf first last maxResults).2 =
        .error .pivotError) ∧
    (hasDupPair (periodFetchedData be.groups dg sqlServerMode maxResults first last tags)
        = false →
      ∃ t, (read_tag_values_period be dg sqlServerMode tags tf first last maxResults).2
          = .ok t ∧
        t.records = periodFetchedData be.groups dg sqlServerMode maxResults first last tags ∧
        ∀ r ∈ periodFetchedData be.groups dg sqlServerMode maxResults first last tags,
          getCell t r.ts r.name = some r.value) := by
  unfold read_tag_values_period
  rw [hf]
  simp only [Bool.false_eq_true, if_false]
  unfold assemblePeriodResult
  rw [show renameColumns ["NAME", "IP_TREND_TIME", "IP_TREND_VALUE"]
      = .ok ["Name", "Timestamp", "Value"] from rfl]
  unfold pivot
  constructor
  · intro hdup
    rw [if_pos hdup]
  · intro hdup
    rw [hdup]
    simp only [Bool.false_eq_true, if_false]
    refine ⟨_, rfl, ?_, ?_⟩
    · rw [addRequestedColumns_records]
    · intro r hr
      unfold getCell
      rw [addRequestedColumns_records]
      rw [show (periodFetchedData be.groups dg sqlServerMode maxResults first last
          tags).find? (fun r2 => r2.ts == r.ts && r2.name == r.name) = some r from
        find?_of_not_dup hdup hr]
      rfl

/-- Concrete backend for the C4 witness: distinct tags share timestamps,
no `(timestamp, name)` pair repeats. -/
def c4wBackend : PeriodBackend :=
  { groups := fun g =>
      if g = "G" then
        [{ name := "a", ts := 1, value := 5 }, { name := "b", ts := 1, value := 6 }]
      else []
    history := [] }

theorem c4_period_read_duplicates_witness :
    ∃ t, (read_tag_values_period c4wBackend (some "G") false ["a", "b"] none none none 0).2
        = .ok t ∧
      t.records = periodFetchedData c4wBackend.groups (some "G") false 0 none none
        ["a", "b"] ∧
      ∀ r ∈ periodFetchedData c4wBackend.groups (some "G") false 0 none none ["a", "b"],
        getCell t r.ts r.name = some r.value := by
  have h := c4_period_read_duplicates c4wBackend (some "G") false ["a", "b"] none
    none none 0 (by decide)
  exact h.2 (by rfl)

/-- C5: in native-historian mode (`_sql_server_mode` false) with
`max_results > 0`, the recorded period read builds one statement per
group that prepends `SET MAX_ROWS max_results` as a separate batch —
rendered as `"SET MAX_ROWS n; <query>;"` — advances the cursor to the
next result set before fetching, carries no inline limit clause, and
obtains exactly `max_results` rows for any group holding at least that
many matching rows. -/
theorem c5_native_mode_max_rows (be : PeriodBackend) (dg : Option String)
    (tags : List String) (first last : Option Nat) (maxResults : Int)
    (queryText : String) (grp : String) (gtags : List String)
    (hpos : maxResults > 0) :
    (read_tag_values_period be dg false tags none first last maxResults).1 =
      (tag_list_to_group_map dg tags).map
        (fun g => periodGroupStmt false maxResults first last g.1 g.2) ∧
    (periodGroupStmt false maxResults first last grp gtags).setMaxRows
      = some maxResults ∧
    (periodGroupStmt false maxResults first last grp gtags).topLimit = none ∧
    (periodGroupStmt false maxResults first last grp gtags).advanceNextset = true ∧
    renderPeriodSql queryText (periodGroupStmt false maxResults first last grp gtags)
      = "SET MAX_ROWS " ++ toString maxResults ++ "; " ++ queryText ++ ";" ∧
    (maxResults.toNat ≤
        ((be.groups grp).filter (periodRowPred first last gtags)).length →
      (fetchGroupRows be.groups false maxResults first last grp gtags).length
        = maxResults.toNat) := by
  have hb : (decide (maxResults > 0) && !false) = true := by simp [hpos]
  refine ⟨rfl, ?_, ?_, ?_, ?_, ?_⟩
  · simp [periodGroupStmt, hpos]
  · simp [periodGroupStmt]
  · simp [periodGroupStmt, hpos]
  · simp [renderPeriodSql, periodGroupStmt, hpos]
  · intro hlen
    unfold fetchGroupRows
    simp only [hpos, if_pos]
    rw [List.length_take]
    exact min_eq_left hlen

/-- Concrete backend for the C5 witness: three matching rows, limit 2. -/
def c5Backend : PeriodBackend :=
  { groups := fun _ =>
      [{ name := "a", ts := 1, value := 5 }, { name := "a", ts := 2, value := 6 },
       { name := "a", ts := 3, value := 7 }]
    history := [] }

theorem c5_native_mode_max_rows_witness :
    (periodGroupStmt false 2 none none "G" ["a"]).setMaxRows = some 2 ∧
    (periodGroupStmt false 2 none none "G" ["a"]).topLimit = none ∧
    (fetchGroupRows c5Backend.groups false 2 none none "G" ["a"]).length = 2 := by
  have h := c5_native_mode_max_rows c5Backend none ["a"] none none 2 "Q" "G" ["a"]
    (by decide)
  exact ⟨h.2.1, h.2.2.1, h.2.2.2.2.2 (by decide)⟩

/-- C6, counterexample: with `max_results = 1 > 0`, the statement
`list_tags` issues carries no limiting in either dialect mode — no inline
row-limit clause in standard (sql-server) mode and no `SET MAX_ROWS`
directive in native-historian mode; the statement-level limiting code of
lines 251-269 is commented out in the source. -/
theorem c6_list_tags_stmt_counterexample :
    (listTagsStmt true 1 "G" ["a"]).topLimit = none ∧
    (listTagsStmt true 1 "G" ["a"]).setMaxRows = none ∧
    (listTagsStmt false 1 "G" ["a"]).topLimit = none ∧
    (listTagsStmt false 1 "G" ["a"]).setMaxRows = none := by decide

/-- C6 (amended): `list_tags` never expresses limiting in the issued
statement: in both dialect modes the statement carries neither an inline
limit nor a row-limit directive.  Instead, when `max_results > 0` at most
`max_results` rows are taken client-side from the executed result set
(`curs.fetchmany`), and when `max_results <= 0` all matching rows are
returned (`curs.fetchall`). -/
theorem c6_list_tags_client_side_limit (table : List String) (sqlServerMode : Bool)
    (maxResults : Int) (grp : String) (gtags : List String) :
    (listTagsStmt sqlServerMode maxResults grp gtags).topLimit = none ∧
    (listTagsStmt sqlServerMode maxResults grp gtags).setMaxRows = none ∧
    (maxResults > 0 →
      listTagsRowsForGroup table sqlServerMode maxResults grp gtags =
        (execListStmt table (listTagsStmt sqlServerMode maxResults grp gtags)).take
          maxResults.toNat) ∧
    (maxResults ≤ 0 →
      listTagsRowsForGroup table sqlServerMode maxResults grp gtags =
        execListStmt table (listTagsStmt sqlServerMode maxResults grp gtags)) := by
  refine ⟨rfl, rfl, ?_, ?_⟩
  · intro hpos
    unfold listTagsRowsForGroup
    simp [hpos]
  · intro hle
    unfold listTagsRowsForGroup
    simp [not_lt.mpr hle]

theorem c6_list_tags_client_side_limit_witness :
    (listTagsStmt true 1 "IP_AIDef" ["fc"]).setMaxRows = none ∧
    listTagsRowsForGroup ["fc002.pv", "fc001.pv"] true 1 "IP_AIDef" ["fc"]
      = ["fc001.pv"] := by
  have h := c6_list_tags_client_side_limit ["fc002.pv", "fc001.pv"] true 1
    "IP_AIDef" ["fc"]
  refine ⟨h.2.1, ?_⟩
  rw [h.2.2.1 (by decide)]
  decide

/-- C7: the connector has exactly the two states Disconnected
(`conn = none`) and Connected, transitioned by `connect`/`disconnect`;
every guarded data operation (`list_tags`, `read_tag_attributes`,
`read_tag_values_period`, `read_tag_values`, `write_tag_values`,
`disconnect`, `connection_info`) invoked while Disconnected fails fast
with the precondition error, issuing no backend statement and leaving the
state unchanged, while `connect` reaches the Connected state and a
guarded `disconnect` from Connected reaches Disconnected. -/
theorem c7_state_machine (s : ConnState) (beL : String → List String)
    (beP : PeriodBackend) (dg : Option String) (mode : Bool)
    (tags filters : List String) (tf : Option String) (first last : Option Nat)
    (maxResults : Int) (serverHost : String) (wtags : List (String × Int))
    (hd : connected s = false) :
    list_tags_op s beL dg mode filters maxResults = ([], .error .preconditionError) ∧
    read_tag_attributes_op s beL dg tags = ([], .error .preconditionError) ∧
    read_tag_values_period_op s beP dg mode tags tf first last maxResults
      = ([], .error .preconditionError) ∧
    read_tag_values_op s tags = ([], .error .preconditionError) ∧
    write_tag_values_op s wtags = ([], .error .preconditionError) ∧
    disconnect_op s = ([], .error .preconditionError) ∧
    connection_info_op s serverHost = ([], .error .preconditionError) ∧
    connected (connect s) = true ∧
    (∀ s2, connected s2 = true →
      disconnect_op s2 = ([], .ok { conn := none }) ∧
      connected { conn := none } = false) := by
  refine ⟨?_, ?_, ?_, ?_, ?_, ?_, ?_, rfl, ?_⟩
  · simp [list_tags_op, activeConnection, hd]
  · simp [read_tag_attributes_op, activeConnection, hd]
  · simp [read_tag_values_period_op, activeConnection, hd]
  · simp [read_tag_values_op, activeConnection, hd]
  · simp [write_tag_values_op, activeConnection, hd]
  · simp [disconnect_op, activeConnection, hd]
  · simp [connection_info_op, activeConnection, hd]
  · intro s2 h2
    exact ⟨by simp [disconnect_op, activeConnection, h2], rfl⟩

theorem c7_state_machine_witness :
    list_tags_op { conn := none } (fun _ => []) none false ["fc001.pv"] 0
      = ([], .error .preconditionError) ∧
    disconnect_op { conn := none } = ([], .error .preconditionError) ∧
    connected (connect { conn := none }) = true := by
  have h := c7_state_machine { conn := none } (fun _ => []) ⟨fun _ => [], []⟩ none
    false [] ["fc001.pv"] none none none 0 "" [] (by decide)
  exact ⟨h.1, h.2.2.2.2.2.1, h.2.2.2.2.2.2.2.1⟩

/-- C9: whenever the resolved time frequency is truthy (any
`time_frequency` other than `None`, the empty string, or a
case-insensitive `"raw data"`) and at least one requested tag contains
the group delimiter, `read_tag_values_period` raises `TypeError` while
building the interpolated branch's tag-name list — the expression
`t.split[delim, 1]` subscripts the bound `split` method instead of
calling it — before any statement is issued. -/
theorem c9_interpolated_type_error (be : PeriodBackend) (dg : Option String)
    (sqlServerMode : Bool) (tags : List String) (tf : Option String)
    (first last : Option Nat) (maxResults : Int) (t : String)
    (hf : pyTruthy (freqOf tf) = true) (ht : t ∈ tags) (hd : hasDelim t = true) :
    read_tag_values_period be dg sqlServerMode tags tf first last maxResults
      = ([], .error .typeError) := by
  unfold read_tag_values_period
  rw [hf]
  simp only [if_true]
  rw [interpTagNames_error ht hd]

theorem c9_interpolated_type_error_witness :
    read_tag_values_period ⟨fun _ => [], []⟩ none false ["G:a"] (some "1h")
      none none 0 = ([], .error .typeError) :=
  c9_interpolated_type_error ⟨fun _ => [], []⟩ none false ["G:a"] (some "1h")
    none none 0 "G:a" (by decide) (by decide) (by decide)

/-- C10: in all three query builders — tag listing, attribute read and
the recorded period read — the name filter is the OR-combination of
`NAME LIKE '<pattern>%'` over the group's patterns, `%` appended to
every pattern, so a stored name extending a requested wildcard-free
(exact) pattern satisfies each statement's filter; for the period read
such a row also passes the full row predicate when no time bounds are
given. -/
theorem c10_prefix_filter (sqlServerMode : Bool) (maxResults : Int)
    (first last : Option Nat) (grp : String) (gtags : List String)
    (tag suffix : String) (ts : Nat) (v : Int)
    (hmem : tag ∈ gtags) (hw : wildcardFree tag = true) :
    matchesPatterns (listTagsStmt sqlServerMode maxResults grp gtags).likePatterns
      (tag ++ suffix) = true ∧
    matchesPatterns (readTagAttributesStmt grp gtags).likePatterns
      (tag ++ suffix) = true ∧
    matchesPatterns
      (periodGroupStmt sqlServerMode maxResults first last grp gtags).likePatterns
      (tag ++ suffix) = true ∧
    periodRowPred none none gtags
      { name := tag ++ suffix, ts := ts, value := v } = true := by
  have he : tag ++ suffix = String.mk (tag.data ++ suffix.data) := by
    rw [← String.data_append]
  have hm : matchesPatterns (likePatternsOf gtags) (tag ++ suffix) = true := by
    rw [he]
    exact matchesPatterns_prefix hmem hw suffix
  exact ⟨hm, hm, hm, by simp [periodRowPred, hm]⟩

theorem c10_prefix_filter_witness :
    matchesPatterns (listTagsStmt false 0 "IP_AIDef" ["fc001.pv"]).likePatterns
      "fc001.pv.extra" = true ∧
    periodRowPred none none ["fc001.pv"]
      { name := "fc001.pv.extra", ts := 0, value := 0 } = true := by
  have h := c10_prefix_filter false 0 none none "IP_AIDef" ["fc001.pv"]
    "fc001.pv" ".extra" 0 0 (by decide) (by decide)
  have he : ("fc001.pv" ++ ".extra" : String) = "fc001.pv.extra" := by decide
  rw [he] at h
  exact ⟨h.1, h.2.2.2⟩

end Ip21
